import Mathlib

/-!
Shallow embedding of the elevator coordination protocol of the
Capstone-Project-DEVS-Models repository: the three atomic DEVS models
ElevatorNum (floor selector), ElevatorDoor (door interlock) and
ElevatorMove (mover), with their state records, external transitions,
internal transitions and time-advance functions, followed by theorems
settling the frozen claims about them.

Simulated time advances are modelled as exact rationals extended with
infinity, since the C++ sigma values in play are the literals 0.11 and
2.0 and std::numeric_limits<double>::infinity().
-/

namespace ElevatorSystem

/-- A time-advance value: a finite rational number of simulated time
units, or infinity (the quiescent value used by the door model). -/
inductive TimeAdv where
  | fin : ℚ → TimeAdv
  | inf : TimeAdv
deriving DecidableEq, Repr

/-- State of the ElevatorDoor atomic model (the door interlock), from
struct ElevatorDoorState: sigma, floorNum (the floor the interlock
believes the elevator is at), floorNumToMove (the last target forwarded
to the mover), lightOn (true means the door is closed) and the
diagnostic string currentStatus. -/
structure ElevatorDoorState where
  sigma : TimeAdv
  floorNum : Int
  floorNumToMove : Int
  lightOn : Bool
  currentStatus : String
deriving DecidableEq, Repr

/-- Initial ElevatorDoor state: the ElevatorDoorState default
constructor followed by the ElevatorDoor constructor body, which sets
sigma to 0.11. -/
def ElevatorDoorState.init : ElevatorDoorState :=
  { sigma := TimeAdv.fin (11 / 100), floorNum := 1, floorNumToMove := 1,
    lightOn := false, currentStatus := "" }

/-- One step of the loop over the inElevatorNum bag in
ElevatorDoor::externalTransition: a requested floor equal to the stored
floorNum opens the door (lightOn = false) and re-arms sigma at 0.11;
a different requested floor closes the door (lightOn = true) and stores
the request in floorNumToMove (sigma untouched). -/
def doorHandleNum (s : ElevatorDoorState) (x : Int) : ElevatorDoorState :=
  if x = s.floorNum then
    { s with lightOn := false, sigma := TimeAdv.fin (11 / 100) }
  else
    { s with lightOn := true, floorNumToMove := x }

/-- One step of the loop over the inElevatorMove bag in
ElevatorDoor::externalTransition: the mover feedback overwrites
floorNum. -/
def doorHandleMove (s : ElevatorDoorState) (y : Int) : ElevatorDoorState :=
  { s with floorNum := y }

/-- ElevatorDoor::externalTransition: first every message of the
inElevatorNum bag is handled in sequence, then every message of the
inElevatorMove bag. -/
def ElevatorDoor.externalTransition (s : ElevatorDoorState)
    (numBag moveBag : List Int) : ElevatorDoorState :=
  moveBag.foldl doorHandleMove (numBag.foldl doorHandleNum s)

/-- ElevatorDoor::internalTransition: a closed door (lightOn = true)
suspends internal firings by setting sigma to infinity; an open door
re-arms the short quantum 0.11. -/
def ElevatorDoor.internalTransition (s : ElevatorDoorState) : ElevatorDoorState :=
  if s.lightOn = true then { s with sigma := TimeAdv.inf }
  else if s.lightOn = false then { s with sigma := TimeAdv.fin (11 / 100) }
  else s

/-- ElevatorDoor::timeAdvance returns sigma. -/
def ElevatorDoor.timeAdvance (s : ElevatorDoorState) : TimeAdv :=
  s.sigma

/-- A single-instant delivery sequence to the door interlock: each
message is either a requested floor on inElevatorNum (Sum.inl) or a
mover feedback on inElevatorMove (Sum.inr). The simulation kernel
collates the messages into the two per-port bags, which the combined
external transition then consumes. -/
def ElevatorDoor.deliver (s : ElevatorDoorState)
    (msgs : List (Int ⊕ Int)) : ElevatorDoorState :=
  ElevatorDoor.externalTransition s
    (msgs.filterMap Sum.getLeft?) (msgs.filterMap Sum.getRight?)

/-- State of the ElevatorMove atomic model (the mover), from struct
ElevatorMoveState: sigma, floorNum (current floor), floorToMove
(target floor), buzzerDuty (buzzer duty cycle, 0 when idle) and the two
diagnostic strings. -/
structure ElevatorMoveState where
  sigma : TimeAdv
  floorNum : Int
  floorToMove : Int
  buzzerDuty : Int
  currentStatus : String
  currentStatuss : String
deriving DecidableEq, Repr

/-- The LCD status line rebuilt by the mover on every moving step, from
the string expression in ElevatorMove::internalTransition. -/
def lcdFloorString (floorToMove floorNum : Int) : String :=
  "BSP_LCD_DrawString(0,5,DFloor:" ++ toString floorToMove ++
    " CFloor:" ++ toString floorNum ++ ",LCD_WHITE)"

/-- Initial ElevatorMove state: the ElevatorMoveState default
constructor followed by the ElevatorMove constructor body, which sets
sigma to 2.0 and leaves currentStatus at the last LCD line it built. -/
def ElevatorMoveState.init : ElevatorMoveState :=
  { sigma := TimeAdv.fin 2, floorNum := 1, floorToMove := 1,
    buzzerDuty := 0, currentStatus := lcdFloorString 1 1, currentStatuss := "" }

/-- ElevatorMove::internalTransition: below the target, move up one
floor with the buzzer on; above the target, move down one floor with
the buzzer on; at the target, silence the buzzer. Sigma is never
modified. -/
def ElevatorMove.internalTransition (s : ElevatorMoveState) : ElevatorMoveState :=
  if s.floorNum < s.floorToMove then
    { s with buzzerDuty := 2, floorNum := s.floorNum + 1,
             currentStatus := lcdFloorString s.floorToMove (s.floorNum + 1) }
  else if s.floorNum > s.floorToMove then
    { s with buzzerDuty := 2, floorNum := s.floorNum - 1,
             currentStatus := lcdFloorString s.floorToMove (s.floorNum - 1) }
  else if s.floorNum = s.floorToMove then
    { s with buzzerDuty := 0 }
  else s

/-- One step of the loop over the inMoveFloor bag in
ElevatorMove::externalTransition: a target different from the stored
one is stored and logged, an equal one is ignored. -/
def moveHandleInput (s : ElevatorMoveState) (x : Int) : ElevatorMoveState :=
  if s.floorToMove ≠ x then
    { s with floorToMove := x,
             currentStatuss := s.currentStatuss ++ "IN:" ++ toString x }
  else s

/-- ElevatorMove::externalTransition: handle every message of the
inMoveFloor bag in sequence. -/
def ElevatorMove.externalTransition (s : ElevatorMoveState)
    (bag : List Int) : ElevatorMoveState :=
  bag.foldl moveHandleInput s

/-- ElevatorMove::timeAdvance returns sigma. -/
def ElevatorMove.timeAdvance (s : ElevatorMoveState) : TimeAdv :=
  s.sigma

/-- The invariant asserted by the specification for the mover: the
activity level is idle exactly when the current floor equals the
target floor. -/
def ElevatorMove.idleInv (s : ElevatorMoveState) : Prop :=
  s.buzzerDuty = 0 ↔ s.floorNum = s.floorToMove

instance (s : ElevatorMoveState) : Decidable (ElevatorMove.idleInv s) :=
  inferInstanceAs (Decidable (_ ↔ _))

/-- State of the ElevatorNum atomic model (the floor selector), from
struct ElevatorNumState: sigma, the last-seen joystick coordinates,
floorNum (the selected floor), doorStatus (the lock flag received from
the door) and the diagnostic string currentStatus. -/
structure ElevatorNumState where
  sigma : TimeAdv
  xCoordinate : Int
  yCoordinate : Int
  floorNum : Int
  doorStatus : Bool
  currentStatus : String
deriving DecidableEq, Repr

/-- Initial ElevatorNum state: the ElevatorNumState default constructor
followed by the ElevatorNum constructor body, which sets sigma to
0.11. -/
def ElevatorNumState.init : ElevatorNumState :=
  { sigma := TimeAdv.fin (11 / 100), xCoordinate := 0, yCoordinate := 0,
    floorNum := 1, doorStatus := false, currentStatus := "" }

/-- One step of the loop over the inInput bag in
ElevatorNum::externalTransition: while the door is open
(doorStatus = false) a pressed button (value 0, i.e. false) resolves
the stored joystick coordinates through the quadrant chain, each branch
also guarded by the floor not being the one already selected; while the
door is closed the pulse only appends the rejection mark DC to the
diagnostic string. -/
def numHandleInput (s : ElevatorNumState) (i : Bool) : ElevatorNumState :=
  if s.doorStatus = false then
    if i = false then
      if s.xCoordinate < 400 ∧ s.yCoordinate > 600 ∧ s.floorNum ≠ 1 then
        { s with floorNum := 1, currentStatus := s.currentStatus ++ "1 " }
      else if s.xCoordinate > 600 ∧ s.yCoordinate > 600 ∧ s.floorNum ≠ 2 then
        { s with floorNum := 2, currentStatus := s.currentStatus ++ "2 " }
      else if s.xCoordinate < 400 ∧ s.yCoordinate < 400 ∧ s.floorNum ≠ 3 then
        { s with floorNum := 3, currentStatus := s.currentStatus ++ "3 " }
      else if s.xCoordinate > 600 ∧ s.yCoordinate < 400 ∧ s.floorNum ≠ 4 then
        { s with floorNum := 4, currentStatus := s.currentStatus ++ "4 " }
      else s
    else s
  else
    { s with currentStatus := s.currentStatus ++ "DC " }

/-- ElevatorNum::externalTransition: handle the inInput bag, then the
inX bag, then the inY bag, then the inDoorStatus bag, each in
sequence. -/
def ElevatorNum.externalTransition (s : ElevatorNumState)
    (inputBag : List Bool) (xBag yBag : List Int) (doorBag : List Bool) :
    ElevatorNumState :=
  let s1 := inputBag.foldl numHandleInput s
  let s2 := xBag.foldl (fun t x => { t with xCoordinate := x }) s1
  let s3 := yBag.foldl (fun t y => { t with yCoordinate := y }) s2
  doorBag.foldl (fun t d => { t with doorStatus := d }) s3

/-- ElevatorNum::timeAdvance returns sigma. -/
def ElevatorNum.timeAdvance (s : ElevatorNumState) : TimeAdv :=
  s.sigma

/-! ## Helper lemmas -/

/-- Folding the mover-feedback handler over a bag only overwrites
floorNum, with the last value of the bag. -/
theorem doorMoveFold (ys : List Int) (s : ElevatorSystem.ElevatorDoorState) :
    ys.foldl doorHandleMove s = { s with floorNum := ys.getLastD s.floorNum } := by
  induction ys generalizing s with
  | nil => rfl
  | cons y t ih =>
    rw [List.foldl_cons, ih, List.getLastD_cons]
    rfl

/-- Folding the confirm-pulse handler over a bag while the door is
closed keeps both floorNum and doorStatus. -/
theorem numLockedFold (pulses : List Bool) (s : ElevatorNumState)
    (h : s.doorStatus = true) :
    (pulses.foldl numHandleInput s).floorNum = s.floorNum ∧
    (pulses.foldl numHandleInput s).doorStatus = true := by
  induction pulses generalizing s with
  | nil => exact ⟨rfl, h⟩
  | cons p t ih =>
    rw [List.foldl_cons]
    have hstep : numHandleInput s p =
        { s with currentStatus := s.currentStatus ++ "DC " } := by
      simp [numHandleInput, h]
    rw [hstep]
    exact ih _ h

/-! ## Claims about the door interlock -/

/-- Claim C1: a requested floor equal to the stored floorNum opens the
door and re-arms sigma at 0.11 leaving the target unchanged; a
different requested floor closes the door and stores the target; right
after the request the door is closed exactly when the request differed
from the stored current floor. -/
theorem claim_C1 (s : ElevatorDoorState) (x : Int) :
    ElevatorDoor.externalTransition s [x] [] =
      (if x = s.floorNum then
        { s with lightOn := false, sigma := TimeAdv.fin (11 / 100) }
      else
        { s with lightOn := true, floorNumToMove := x }) ∧
    ((ElevatorDoor.externalTransition s [x] []).lightOn = true ↔ x ≠ s.floorNum) := by
  constructor
  · rfl
  · by_cases h : x = s.floorNum <;>
      simp [ElevatorDoor.externalTransition, doorHandleNum, h]

/-- Claim C3: an external transition in which only the mover-feedback
port carries input sets floorNum to the received value (the last of the
bag) and changes nothing else; in particular a single feedback message
y yields exactly the old state with floorNum replaced by y. -/
theorem claim_C3 (s : ElevatorDoorState) (y : Int) (ys : List Int) :
    ElevatorDoor.externalTransition s [] ys =
      { s with floorNum := ys.getLastD s.floorNum } ∧
    ElevatorDoor.externalTransition s [] [y] = { s with floorNum := y } := by
  refine ⟨?_, ?_⟩
  · exact doorMoveFold ys s
  · rfl

/-- Claim C4: when a requested floor and a mover feedback arrive in the
same external transition, the request is compared against the
pre-update floorNum (here x against s.floorNum even though the feedback
y also overwrites floorNum in the same call), and the resulting state
is a function of the two per-port bags alone, hence independent of the
delivery order of the messages across the two input channels. -/
theorem claim_C4 (s : ElevatorDoorState) (x y : Int)
    (msgs msgs2 : List (Int ⊕ Int)) :
    ((ElevatorDoor.externalTransition s [x] [y]).lightOn = true ↔ x ≠ s.floorNum) ∧
    (ElevatorDoor.externalTransition s [x] [y]).floorNum = y ∧
    (msgs.filterMap Sum.getLeft? = msgs2.filterMap Sum.getLeft? →
      msgs.filterMap Sum.getRight? = msgs2.filterMap Sum.getRight? →
      ElevatorDoor.deliver s msgs = ElevatorDoor.deliver s msgs2) := by
  refine ⟨?_, ?_, ?_⟩
  · by_cases h : x = s.floorNum <;>
      simp [ElevatorDoor.externalTransition, doorHandleNum, doorHandleMove, h]
  · by_cases h : x = s.floorNum <;>
      simp [ElevatorDoor.externalTransition, doorHandleNum, doorHandleMove, h]
  · intro hl hr
    unfold ElevatorDoor.deliver
    rw [hl, hr]

/-- Witness for claim C4 at the door initial state with a request for
floor 2 and a feedback reporting floor 2 delivered in the same instant,
in the two possible channel orders. -/
theorem claim_C4_witness :
    ([Sum.inl 2, Sum.inr 2] : List (Int ⊕ Int)).filterMap Sum.getLeft? =
      ([Sum.inr 2, Sum.inl 2] : List (Int ⊕ Int)).filterMap Sum.getLeft? ∧
    ([Sum.inl 2, Sum.inr 2] : List (Int ⊕ Int)).filterMap Sum.getRight? =
      ([Sum.inr 2, Sum.inl 2] : List (Int ⊕ Int)).filterMap Sum.getRight? ∧
    ElevatorDoor.deliver ElevatorDoorState.init [Sum.inl 2, Sum.inr 2] =
      ElevatorDoor.deliver ElevatorDoorState.init [Sum.inr 2, Sum.inl 2] := by
  refine ⟨by decide, by decide, ?_⟩
  exact (claim_C4 ElevatorDoorState.init 2 2 [Sum.inl 2, Sum.inr 2]
    [Sum.inr 2, Sum.inl 2]).2.2 (by decide) (by decide)

/-- Claim C9: the door internal transition sets sigma to infinity when
the door is closed and to the short quantum 0.11 when it is open,
leaving every other field unchanged, and the time advance of the
resulting state is that sigma. -/
theorem claim_C9 (s : ElevatorDoorState) :
    ElevatorDoor.internalTransition s =
      (if s.lightOn = true then { s with sigma := TimeAdv.inf }
        else { s with sigma := TimeAdv.fin (11 / 100) }) ∧
    ElevatorDoor.timeAdvance (ElevatorDoor.internalTransition s) =
      (if s.lightOn = true then TimeAdv.inf else TimeAdv.fin (11 / 100)) := by
  cases h : s.lightOn <;>
    simp [ElevatorDoor.internalTransition, ElevatorDoor.timeAdvance, h]

/-! ## Claims about the floor selector -/

/-- Claim C5: with the door open, a confirm pulse (the active value 0,
i.e. false) with stored axes strictly inside one quadrant resolves
floorNum to the floor of that quadrant. -/
theorem claim_C5 (s : ElevatorNumState) (h : s.doorStatus = false) :
    (s.xCoordinate < 400 → s.yCoordinate > 600 →
      (ElevatorNum.externalTransition s [false] [] [] []).floorNum = 1) ∧
    (s.xCoordinate > 600 → s.yCoordinate > 600 →
      (ElevatorNum.externalTransition s [false] [] [] []).floorNum = 2) ∧
    (s.xCoordinate < 400 → s.yCoordinate < 400 →
      (ElevatorNum.externalTransition s [false] [] [] []).floorNum = 3) ∧
    (s.xCoordinate > 600 → s.yCoordinate < 400 →
      (ElevatorNum.externalTransition s [false] [] [] []).floorNum = 4) := by
  show (_ → _ → (numHandleInput s false).floorNum = 1) ∧
    (_ → _ → (numHandleInput s false).floorNum = 2) ∧
    (_ → _ → (numHandleInput s false).floorNum = 3) ∧
    (_ → _ → (numHandleInput s false).floorNum = 4)
  unfold numHandleInput
  rw [h]
  refine ⟨fun hx hy => ?_, fun hx hy => ?_, fun hx hy => ?_, fun hx hy => ?_⟩ <;>
    split_ifs <;> first | rfl | omega | simp_all

/-- Witness for claim C5: from the initial selector state with the
joystick parked in the top-right quadrant, a confirm pulse selects
floor 2. -/
theorem claim_C5_witness :
    ({ ElevatorNumState.init with xCoordinate := 700, yCoordinate := 700 } :
      ElevatorNumState).doorStatus = false ∧
    (ElevatorNum.externalTransition
      { ElevatorNumState.init with xCoordinate := 700, yCoordinate := 700 }
      [false] [] [] []).floorNum = 2 := by
  refine ⟨rfl, ?_⟩
  exact (claim_C5 _ rfl).2.1 (by decide) (by decide)

/-- Claim C6: a confirm pulse never changes the selected floor while
the door is closed (for any sequence of pulses), nor when the stored
axes are outside every quadrant, nor when the resolved quadrant is the
floor already selected; in the two latter cases the whole state is
unchanged, never an error. -/
theorem claim_C6 (s : ElevatorNumState) (pulses : List Bool) :
    (s.doorStatus = true →
      (ElevatorNum.externalTransition s pulses [] [] []).floorNum = s.floorNum) ∧
    (s.doorStatus = false →
      ¬ (s.xCoordinate < 400 ∧ s.yCoordinate > 600) →
      ¬ (s.xCoordinate > 600 ∧ s.yCoordinate > 600) →
      ¬ (s.xCoordinate < 400 ∧ s.yCoordinate < 400) →
      ¬ (s.xCoordinate > 600 ∧ s.yCoordinate < 400) →
      ElevatorNum.externalTransition s [false] [] [] [] = s) ∧
    (s.doorStatus = false →
      ((s.xCoordinate < 400 ∧ s.yCoordinate > 600 ∧ s.floorNum = 1) ∨
       (s.xCoordinate > 600 ∧ s.yCoordinate > 600 ∧ s.floorNum = 2) ∨
       (s.xCoordinate < 400 ∧ s.yCoordinate < 400 ∧ s.floorNum = 3) ∨
       (s.xCoordinate > 600 ∧ s.yCoordinate < 400 ∧ s.floorNum = 4)) →
      ElevatorNum.externalTransition s [false] [] [] [] = s) := by
  refine ⟨fun h => (numLockedFold pulses s h).1, fun h h1 h2 h3 h4 => ?_,
    fun h hq => ?_⟩
  · show numHandleInput s false = s
    unfold numHandleInput
    rw [h]
    split_ifs <;> first | rfl | omega | simp_all
  · show numHandleInput s false = s
    unfold numHandleInput
    rw [h]
    rcases hq with ⟨hx, hy, hf⟩ | ⟨hx, hy, hf⟩ | ⟨hx, hy, hf⟩ | ⟨hx, hy, hf⟩ <;>
      split_ifs <;> first | rfl | omega | simp_all

/-- Witness for claim C6: with the door closed, two confirm pulses in
one instant leave the selected floor unchanged. -/
theorem claim_C6_witness :
    ({ ElevatorNumState.init with doorStatus := true } :
      ElevatorNumState).doorStatus = true ∧
    (ElevatorNum.externalTransition
      { ElevatorNumState.init with doorStatus := true }
      [false, false] [] [] []).floorNum =
      ({ ElevatorNumState.init with doorStatus := true } :
        ElevatorNumState).floorNum := by
  exact ⟨rfl, (claim_C6 { ElevatorNumState.init with doorStatus := true }
    [false, false]).1 rfl⟩

/-- Claim C10: the quadrant resolution only runs for confirm messages
carrying the value 0 (false); with the door open, a confirm message
carrying true leaves the whole selector state, in particular floorNum
and the diagnostic string, unchanged. -/
theorem claim_C10 (s : ElevatorNumState) (h : s.doorStatus = false) :
    ElevatorNum.externalTransition s [true] [] [] [] = s := by
  show numHandleInput s true = s
  unfold numHandleInput
  rw [h]
  rfl

/-- Witness for claim C10 at the initial selector state. -/
theorem claim_C10_witness :
    ElevatorNumState.init.doorStatus = false ∧
    ElevatorNum.externalTransition ElevatorNumState.init [true] [] [] [] =
      ElevatorNumState.init :=
  ⟨rfl, claim_C10 ElevatorNumState.init rfl⟩

/-! ## Claims about the mover -/

/-- Counterexample to claim C2: at the initial mover state the floors
are equal and the internal transition silences the buzzer, yet the
time advance of the resulting state is still the finite quantum 2.0,
not infinity, so a further time-driven transition stays scheduled. -/
theorem claim_C2_counterexample :
    ElevatorMoveState.init.floorNum = ElevatorMoveState.init.floorToMove ∧
    (ElevatorMove.internalTransition ElevatorMoveState.init).buzzerDuty = 0 ∧
    ElevatorMove.timeAdvance (ElevatorMove.internalTransition ElevatorMoveState.init) =
      TimeAdv.fin 2 ∧
    TimeAdv.fin 2 ≠ TimeAdv.inf := by
  refine ⟨rfl, ?_, ?_, by decide⟩ <;> rfl

/-- Sigma is untouched by folding the mover input handler over a
bag. -/
theorem moveExtFoldSigma (bag : List Int) (s : ElevatorMoveState) :
    (bag.foldl moveHandleInput s).sigma = s.sigma := by
  induction bag generalizing s with
  | nil => rfl
  | cons x t ih =>
    rw [List.foldl_cons, ih]
    unfold moveHandleInput
    split_ifs <;> rfl

/-- Claim C2 as amended: an internal transition with equal floors only
sets the buzzer duty to 0; neither transition of the mover ever
modifies sigma, which starts at the finite quantum 2.0, so the time
advance stays 2.0 and the mover keeps firing time-driven transitions
even while idle, instead of becoming quiescent. -/
theorem claim_C2 (s : ElevatorMoveState) (bag : List Int) :
    (s.floorNum = s.floorToMove →
      ElevatorMove.internalTransition s = { s with buzzerDuty := 0 }) ∧
    (ElevatorMove.internalTransition s).sigma = s.sigma ∧
    (ElevatorMove.externalTransition s bag).sigma = s.sigma ∧
    ElevatorMove.timeAdvance s = s.sigma ∧
    ElevatorMoveState.init.sigma = TimeAdv.fin 2 := by
  refine ⟨fun h => ?_, ?_, moveExtFoldSigma bag s, rfl, rfl⟩
  · unfold ElevatorMove.internalTransition
    rw [h]
    simp
  · unfold ElevatorMove.internalTransition
    split_ifs <;> rfl

/-- Witness for claim C2 at the initial mover state. -/
theorem claim_C2_witness :
    ElevatorMoveState.init.floorNum = ElevatorMoveState.init.floorToMove ∧
    ElevatorMove.internalTransition ElevatorMoveState.init =
      { ElevatorMoveState.init with buzzerDuty := 0 } ∧
    (ElevatorMove.externalTransition ElevatorMoveState.init [3]).sigma =
      ElevatorMoveState.init.sigma := by
  have h := claim_C2 ElevatorMoveState.init [3]
  exact ⟨rfl, h.1 rfl, h.2.2.1⟩

/-- Counterexample to claim C8: the idle-iff-arrived equivalence holds
in a mover state one floor below its target with the buzzer on, but
fails right after the internal transition that arrives at the target
(the buzzer is still on), and it also fails right after an external
transition that installs a new target (the buzzer is still off). -/
theorem claim_C8_counterexample :
    ElevatorMove.idleInv ⟨TimeAdv.fin 2, 1, 2, 2, "", ""⟩ ∧
    ¬ ElevatorMove.idleInv
      (ElevatorMove.internalTransition ⟨TimeAdv.fin 2, 1, 2, 2, "", ""⟩) ∧
    ElevatorMove.idleInv ElevatorMoveState.init ∧
    ¬ ElevatorMove.idleInv
      (ElevatorMove.externalTransition ElevatorMoveState.init [2]) := by
  refine ⟨by decide, ?_, by decide, ?_⟩
  · intro hinv
    have h2 : (ElevatorMove.internalTransition
        (⟨TimeAdv.fin 2, 1, 2, 2, "", ""⟩ : ElevatorMoveState)).buzzerDuty = 2 := rfl
    have hfl : (ElevatorMove.internalTransition
        (⟨TimeAdv.fin 2, 1, 2, 2, "", ""⟩ : ElevatorMoveState)).floorNum =
        (ElevatorMove.internalTransition
        (⟨TimeAdv.fin 2, 1, 2, 2, "", ""⟩ : ElevatorMoveState)).floorToMove := rfl
    have := hinv.mpr hfl
    rw [h2] at this
    exact absurd this (by decide)
  · intro hinv
    have h0 : (ElevatorMove.externalTransition ElevatorMoveState.init [2]).buzzerDuty
        = 0 := rfl
    have := hinv.mp h0
    have hne : (ElevatorMove.externalTransition ElevatorMoveState.init [2]).floorNum ≠
        (ElevatorMove.externalTransition ElevatorMoveState.init [2]).floorToMove := by
      decide
    exact hne this

/-- Claim C8 as amended: the equivalence of idle activity and equal
floors holds in the initial mover state and is re-established by the
internal transition relative to its pre-state (after an internal
transition the buzzer is off exactly when the floors were equal before
it), but it is not preserved as an invariant by the arrival step or by
the external transition. -/
theorem claim_C8 :
    ElevatorMove.idleInv ElevatorMoveState.init ∧
    ∀ s : ElevatorMoveState,
      ((ElevatorMove.internalTransition s).buzzerDuty = 0 ↔
        s.floorNum = s.floorToMove) := by
  refine ⟨by decide, fun s => ?_⟩
  unfold ElevatorMove.internalTransition
  split_ifs with h1 h2 h3 <;> first | (exfalso; omega) | (simp; omega)

/-- A moving-up step of the mover internal transition. -/
theorem moveStep_lt (s : ElevatorMoveState) (h : s.floorNum < s.floorToMove) :
    ElevatorMove.internalTransition s =
      { s with buzzerDuty := 2, floorNum := s.floorNum + 1,
               currentStatus := lcdFloorString s.floorToMove (s.floorNum + 1) } := by
  unfold ElevatorMove.internalTransition
  rw [if_pos h]

/-- A moving-down step of the mover internal transition. -/
theorem moveStep_gt (s : ElevatorMoveState) (h : s.floorNum > s.floorToMove) :
    ElevatorMove.internalTransition s =
      { s with buzzerDuty := 2, floorNum := s.floorNum - 1,
               currentStatus := lcdFloorString s.floorToMove (s.floorNum - 1) } := by
  unfold ElevatorMove.internalTransition
  rw [if_neg (by omega), if_pos h]

/-- An arrival step of the mover internal transition. -/
theorem moveStep_eq (s : ElevatorMoveState) (h : s.floorNum = s.floorToMove) :
    ElevatorMove.internalTransition s = { s with buzzerDuty := 0 } := by
  unfold ElevatorMove.internalTransition
  rw [if_neg (by omega), if_neg (by omega), if_pos h]

/-- The mover internal transition never writes floorToMove. -/
theorem moveStepTarget (s : ElevatorMoveState) :
    (ElevatorMove.internalTransition s).floorToMove = s.floorToMove := by
  unfold ElevatorMove.internalTransition
  split_ifs <;> rfl

/-- Iterating the mover internal transition never changes
floorToMove. -/
theorem moveIterTarget (k : ℕ) (s : ElevatorMoveState) :
    ((ElevatorMove.internalTransition)^[k] s).floorToMove = s.floorToMove := by
  induction k generalizing s with
  | zero => rfl
  | succ n ih => rw [Function.iterate_succ_apply, ih, moveStepTarget]

/-- While at least k floors below the target, k iterations of the
internal transition move the floor up by exactly k. -/
theorem moveRun_up (k : ℕ) : ∀ s : ElevatorMoveState,
    s.floorNum + (k : ℤ) ≤ s.floorToMove →
    ((ElevatorMove.internalTransition)^[k] s).floorNum = s.floorNum + (k : ℤ) := by
  induction k with
  | zero => intro s h; simp
  | succ n ih =>
    intro s h
    rw [Function.iterate_succ_apply]
    have hlt : s.floorNum < s.floorToMove := by omega
    have hstep := moveStep_lt s hlt
    have hrec := ih (ElevatorMove.internalTransition s) (by rw [hstep]; simp; omega)
    rw [hrec, hstep]
    simp
    omega

/-- While at least k floors above the target, k iterations of the
internal transition move the floor down by exactly k. -/
theorem moveRun_down (k : ℕ) : ∀ s : ElevatorMoveState,
    s.floorToMove ≤ s.floorNum - (k : ℤ) →
    ((ElevatorMove.internalTransition)^[k] s).floorNum = s.floorNum - (k : ℤ) := by
  induction k with
  | zero => intro s h; simp
  | succ n ih =>
    intro s h
    rw [Function.iterate_succ_apply]
    have hgt : s.floorNum > s.floorToMove := by omega
    have hstep := moveStep_gt s hgt
    have hrec := ih (ElevatorMove.internalTransition s) (by rw [hstep]; simp; omega)
    rw [hrec, hstep]
    simp
    omega

/-- Every step of an upward run keeps the buzzer on: the step numbered
m + 1 fires from a floor still strictly below the target. -/
theorem moveRunDuty_up (m : ℕ) (s : ElevatorMoveState)
    (h : s.floorNum + (m : ℤ) < s.floorToMove) :
    ((ElevatorMove.internalTransition)^[m + 1] s).buzzerDuty = 2 := by
  rw [Function.iterate_succ_apply']
  have h1 := moveRun_up m s (by omega)
  have h2 := moveIterTarget m s
  have hlt : ((ElevatorMove.internalTransition)^[m] s).floorNum <
      ((ElevatorMove.internalTransition)^[m] s).floorToMove := by
    rw [h1, h2]; omega
  rw [moveStep_lt _ hlt]

/-- Every step of a downward run keeps the buzzer on: the step numbered
m + 1 fires from a floor still strictly above the target. -/
theorem moveRunDuty_down (m : ℕ) (s : ElevatorMoveState)
    (h : s.floorToMove < s.floorNum - (m : ℤ)) :
    ((ElevatorMove.internalTransition)^[m + 1] s).buzzerDuty = 2 := by
  rw [Function.iterate_succ_apply']
  have h1 := moveRun_down m s (by omega)
  have h2 := moveIterTarget m s
  have hgt : ((ElevatorMove.internalTransition)^[m] s).floorNum >
      ((ElevatorMove.internalTransition)^[m] s).floorToMove := by
    rw [h1, h2]; omega
  rw [moveStep_gt _ hgt]

/-- Claim C7: starting the mover at floor A with target B, A different
from B, and letting only time-driven transitions fire: the target never
changes; the floor is still short of B strictly before step number
absolute-difference of B and A; each step up to that number has moved
the floor by exactly one per step toward B (up when A is below B, down
when A is above B) with the buzzer on; the floor reaches B exactly at
that step number; and the following step silences the buzzer while
staying at B. -/
theorem claim_C7 (A B d : Int) (cs css : String) (sg : TimeAdv) (k : ℕ)
    (hAB : A ≠ B) :
    ((ElevatorMove.internalTransition)^[k]
      (⟨sg, A, B, d, cs, css⟩ : ElevatorMoveState)).floorToMove = B ∧
    (k < (B - A).natAbs →
      ((ElevatorMove.internalTransition)^[k]
        (⟨sg, A, B, d, cs, css⟩ : ElevatorMoveState)).floorNum ≠ B) ∧
    (A < B → 1 ≤ k → k ≤ (B - A).natAbs →
      ((ElevatorMove.internalTransition)^[k]
        (⟨sg, A, B, d, cs, css⟩ : ElevatorMoveState)).floorNum = A + (k : ℤ) ∧
      ((ElevatorMove.internalTransition)^[k]
        (⟨sg, A, B, d, cs, css⟩ : ElevatorMoveState)).buzzerDuty = 2) ∧
    (B < A → 1 ≤ k → k ≤ (B - A).natAbs →
      ((ElevatorMove.internalTransition)^[k]
        (⟨sg, A, B, d, cs, css⟩ : ElevatorMoveState)).floorNum = A - (k : ℤ) ∧
      ((ElevatorMove.internalTransition)^[k]
        (⟨sg, A, B, d, cs, css⟩ : ElevatorMoveState)).buzzerDuty = 2) ∧
    ((ElevatorMove.internalTransition)^[(B - A).natAbs]
      (⟨sg, A, B, d, cs, css⟩ : ElevatorMoveState)).floorNum = B ∧
    ((ElevatorMove.internalTransition)^[(B - A).natAbs + 1]
      (⟨sg, A, B, d, cs, css⟩ : ElevatorMoveState)).buzzerDuty = 0 ∧
    ((ElevatorMove.internalTransition)^[(B - A).natAbs + 1]
      (⟨sg, A, B, d, cs, css⟩ : ElevatorMoveState)).floorNum = B := by
  have harrive : ((ElevatorMove.internalTransition)^[(B - A).natAbs]
      (⟨sg, A, B, d, cs, css⟩ : ElevatorMoveState)).floorNum = B := by
    rcases hAB.lt_or_lt with hud | hud
    · have := moveRun_up (B - A).natAbs ⟨sg, A, B, d, cs, css⟩
        (show A + ((B - A).natAbs : ℤ) ≤ B by omega)
      rw [this]
      show A + ((B - A).natAbs : ℤ) = B
      omega
    · have := moveRun_down (B - A).natAbs ⟨sg, A, B, d, cs, css⟩
        (show B ≤ A - ((B - A).natAbs : ℤ) by omega)
      rw [this]
      show A - ((B - A).natAbs : ℤ) = B
      omega
  have hfinal : ElevatorMove.internalTransition
      ((ElevatorMove.internalTransition)^[(B - A).natAbs]
        (⟨sg, A, B, d, cs, css⟩ : ElevatorMoveState)) =
      { ((ElevatorMove.internalTransition)^[(B - A).natAbs]
          (⟨sg, A, B, d, cs, css⟩ : ElevatorMoveState)) with buzzerDuty := 0 } := by
    refine moveStep_eq _ ?_
    rw [harrive, moveIterTarget]
  refine ⟨moveIterTarget k _, fun hk => ?_, fun hud hk1 hkn => ?_,
    fun hud hk1 hkn => ?_, harrive, ?_, ?_⟩
  · rcases hAB.lt_or_lt with hud | hud
    · have := moveRun_up k ⟨sg, A, B, d, cs, css⟩
        (show A + (k : ℤ) ≤ B by omega)
      rw [this]
      show A + (k : ℤ) ≠ B
      omega
    · have := moveRun_down k ⟨sg, A, B, d, cs, css⟩
        (show B ≤ A - (k : ℤ) by omega)
      rw [this]
      show A - (k : ℤ) ≠ B
      omega
  · obtain ⟨m, rfl⟩ : ∃ m, k = m + 1 := ⟨k - 1, by omega⟩
    refine ⟨?_, moveRunDuty_up m _ (show A + (m : ℤ) < B by omega)⟩
    have := moveRun_up (m + 1) ⟨sg, A, B, d, cs, css⟩
      (show A + ((m + 1 : ℕ) : ℤ) ≤ B by omega)
    rw [this]
  · obtain ⟨m, rfl⟩ : ∃ m, k = m + 1 := ⟨k - 1, by omega⟩
    refine ⟨?_, moveRunDuty_down m _ (show B < A - (m : ℤ) by omega)⟩
    have := moveRun_down (m + 1) ⟨sg, A, B, d, cs, css⟩
      (show B ≤ A - ((m + 1 : ℕ) : ℤ) by omega)
    rw [this]
  · rw [Function.iterate_succ_apply', hfinal]
  · rw [Function.iterate_succ_apply', hfinal]
    exact harrive

/-- Witness for claim C7: a traversal from floor 1 to floor 3 reaches
floor 3 after two steps with the buzzer on during the first step, and
the third step silences the buzzer at floor 3. -/
theorem claim_C7_witness :
    (1 : Int) ≠ 3 ∧
    ((ElevatorMove.internalTransition)^[1]
      (⟨TimeAdv.fin 2, 1, 3, 0, "", ""⟩ : ElevatorMoveState)).floorNum = 2 ∧
    ((ElevatorMove.internalTransition)^[1]
      (⟨TimeAdv.fin 2, 1, 3, 0, "", ""⟩ : ElevatorMoveState)).buzzerDuty = 2 ∧
    ((ElevatorMove.internalTransition)^[((3 : Int) - 1).natAbs]
      (⟨TimeAdv.fin 2, 1, 3, 0, "", ""⟩ : ElevatorMoveState)).floorNum = 3 ∧
    ((ElevatorMove.internalTransition)^[((3 : Int) - 1).natAbs + 1]
      (⟨TimeAdv.fin 2, 1, 3, 0, "", ""⟩ : ElevatorMoveState)).buzzerDuty = 0 := by
  have h := claim_C7 1 3 0 "" "" (TimeAdv.fin 2) 1 (by decide)
  have h3 := h.2.2.1 (by decide) (by decide) (by decide)
  have hfl : ((ElevatorMove.internalTransition)^[1]
      (⟨TimeAdv.fin 2, 1, 3, 0, "", ""⟩ : ElevatorMoveState)).floorNum = 2 := by
    rw [h3.1]
    decide
  exact ⟨by decide, hfl, h3.2, h.2.2.2.2.1, h.2.2.2.2.2.1⟩

end ElevatorSystem
